import Mathlib

/-!
Verification of the script-execution core of the snippet browser:
`ScriptInjector` (src/src/services/ScriptInjector.ts) and
`ConsoleManager` (src/src/services/ConsoleManager.ts).

The TypeScript is shallowly embedded as pure Lean functions.  Mutable class
state becomes explicit state records threaded through the operations.  Host
primitives that the code calls but does not define (the JavaScript `RegExp`
engine, `new Function` syntax checking, stack-trace regex matching, clocks
and memory sampling) are modelled as explicit oracle parameters: the Lean
functions are faithful to the control flow of the source for every possible
behaviour of those primitives.  JavaScript numbers used only for comparisons
and formatting are modelled as `Nat`.
-/

/-- Severity of a console message.  The TypeScript union in
src/src/types/snippet.ts has log | error | warn | info; `getMessageCounts`
additionally mentions an auto kind, so it is included. -/
inductive MsgType where
  | log
  | error
  | warn
  | info
  | auto
deriving DecidableEq, Repr

/-- Origin of a console message (src/src/types/snippet.ts). -/
inductive MsgSource where
  | snippet
  | page
deriving DecidableEq, Repr

/-- ConsoleMessage record (src/src/types/snippet.ts).  `timestamp` models a
JavaScript Date as an instant in milliseconds. -/
structure ConsoleMessage where
  type : MsgType
  message : String
  timestamp : Nat
  source : MsgSource
  snippetId : Option String
deriving DecidableEq, Repr

/-- ErrorLog record (src/src/types/snippet.ts).  `lineNumber`/`columnNumber`
are optional numbers; `none` models the JavaScript `undefined`. -/
structure ErrorLog where
  snippetId : String
  snippetName : String
  error : String
  stackTrace : String
  timestamp : Nat
  url : String
  lineNumber : Option Nat
  columnNumber : Option Nat
deriving DecidableEq, Repr

/-- Snippet record (src/src/types/snippet.ts), fields in declaration order. -/
structure Snippet where
  id : String
  name : String
  code : String
  urlPattern : String
  enabled : Bool
  createdAt : Nat
  updatedAt : Nat
  executeOnLoad : Bool
deriving DecidableEq, Repr

/-- A JavaScript error value as observed by the injector: message plus the
best-effort stack / line / column fields read by `createDetailedErrorLog`.
`none` models an absent (`undefined`) property. -/
structure JsError where
  message : String
  stack : Option String
  lineNumber : Option Nat
  columnNumber : Option Nat
deriving DecidableEq, Repr

/-- JavaScript truthiness of an optional number (`x || y` picks `y` when `x`
is `undefined` or `0`). -/
def jsTruthyNum (o : Option Nat) : Bool :=
  match o with
  | some n => n != 0
  | none => false

/-- JavaScript truthiness of an optional string (`undefined` and the empty
string are falsy). -/
def jsTruthyStr (o : Option String) : Bool :=
  match o with
  | some s => s != ""
  | none => false

/-- `sub` occurs as a contiguous run inside `l` (JavaScript
`String.prototype.includes` on the underlying character lists). -/
def listIncludes (sub : List Char) : List Char → Bool
  | [] => sub.isEmpty
  | c :: t => sub.isPrefixOf (c :: t) || listIncludes sub t

/-- JavaScript `s.includes(sub)`. -/
def strIncludes (s sub : String) : Bool :=
  listIncludes sub.data s.data

/-- JavaScript `s.startsWith(p)`, on the underlying character lists. -/
def strStartsWith (s p : String) : Bool :=
  p.data.isPrefixOf s.data

/-- JavaScript `s.toLowerCase()`, on the underlying character lists. -/
def strToLower (s : String) : String :=
  String.mk (s.data.map Char.toLower)

/-- JavaScript `s.includes(c)` for a single character. -/
def strHasChar (s : String) (c : Char) : Bool :=
  s.data.contains c

/-- ASCII whitespace, the fragment of the JavaScript `trim` character class
exercised by this code. -/
def isJsSpace (c : Char) : Bool :=
  c = ' ' || c = '\t' || c = '\n' || c = '\r'

/-- JavaScript `s.trim()`, on the underlying character lists. -/
def strTrim (s : String) : String :=
  String.mk (((s.data.dropWhile isJsSpace).reverse.dropWhile isJsSpace).reverse)

/-! ## ConsoleManager (src/src/services/ConsoleManager.ts)

The class fields `messageHistory`, `errorHistory` and `maxHistorySize`
become a state record.  The `outputCallback` listener is an external effect
(it never reads or writes the histories) and is not part of the state.
The `RegExp.test` calls on the fixed suggestion table are modelled by an
oracle `rt : String → String → Bool` taking the regex source text and the
subject string; all table regexes carry only the `i` (or dead `g`) flags and
are freshly constructed per call, so a pure oracle is faithful. -/

/-- An ErrorSuggestion rule: regex source text, suggestion, category. -/
structure ErrorSuggestion where
  patternSrc : String
  suggestion : String
  category : String
deriving DecidableEq, Repr

/-- The fixed suggestion table of `initializeErrorSuggestions`, in
declaration order, with the exact regex source texts of the code. -/
def errorSuggestions : List ErrorSuggestion :=
  [ ⟨"Unexpected token",
     "Check for missing semicolons, brackets, or quotes. Verify proper JavaScript syntax.",
     "syntax"⟩,
    ⟨"Unexpected end of input",
     "Missing closing bracket, parenthesis, or quote. Check code structure.",
     "syntax"⟩,
    ⟨"Invalid or unexpected token",
     "Check for special characters or encoding issues in your code.",
     "syntax"⟩,
    ⟨"Cannot read propert(y|ies) of (null|undefined)",
     "Check if the object exists before accessing its properties. Use optional chaining (?.) or null checks.",
     "runtime"⟩,
    ⟨"is not a function",
     "Verify the method exists and is callable. Check for typos in function names.",
     "runtime"⟩,
    ⟨"Cannot set propert(y|ies) of (null|undefined)",
     "Ensure the target object is initialized before setting properties.",
     "runtime"⟩,
    ⟨"Cannot read propert(y|ies) of null.*querySelector|getElementById",
     "Element not found. Check if the element exists in the DOM or wait for page load.",
     "dom"⟩,
    ⟨"Node was not found",
     "DOM element may have been removed or not yet created. Check timing of DOM operations.",
     "dom"⟩,
    ⟨"Blocked a frame with origin.*from accessing a cross-origin frame",
     "Cross-origin access blocked. This is a browser security feature.",
     "security"⟩,
    ⟨"Script error",
     "Generic script error, often due to cross-origin restrictions or blocked resources.",
     "security"⟩,
    ⟨"Maximum call stack size exceeded",
     "Infinite recursion detected. Check for recursive function calls without proper exit conditions.",
     "performance"⟩,
    ⟨"Script execution timeout",
     "Script took too long to execute. Check for infinite loops or heavy computations.",
     "performance"⟩ ]

/-- `getErrorSuggestions`: every rule whose pattern matches the error text,
in table order, projected to (suggestion, category) pairs. -/
def getErrorSuggestions (rt : String → String → Bool) (error : String) :
    List (String × String) :=
  (errorSuggestions.filter (fun r => rt r.patternSrc error)).map
    (fun r => (r.suggestion, r.category))

/-- Mutable state of a ConsoleManager instance. -/
structure CMState where
  messageHistory : List ConsoleMessage
  errorHistory : List ErrorLog
  maxHistorySize : Nat
deriving DecidableEq, Repr

/-- The state of the default-constructed singleton `consoleManager`. -/
def initCMState : CMState := ⟨[], [], 1000⟩

/-- JavaScript `arr.slice(-max)`.  For `max = 0` the argument `-0` is `0`,
so the whole array is returned; otherwise the last `max` elements. -/
def sliceLast (max : Nat) (l : List α) : List α :=
  if max = 0 then l else l.drop (l.length - max)

/-- `addMessage`: push onto the message history, then trim to the last
`maxHistorySize` entries when the push exceeded the bound.  (The
`message.timestamp || new Date()` default never fires: a Date object is
always truthy.)  Notifying the output callback is an external effect. -/
def addMessage (st : CMState) (m : ConsoleMessage) : CMState :=
  let pushed := st.messageHistory ++ [m]
  { st with
    messageHistory :=
      if pushed.length > st.maxHistorySize then sliceLast st.maxHistorySize pushed
      else pushed }

/-- `Line L:C` text of the location message; `lineNumber || '?'` renders
`undefined` and `0` as `?`. -/
def lcPart (o : Option Nat) : String :=
  match o with
  | some n => if n = 0 then "?" else toString n
  | none => "?"

/-- `cleanStackTrace`: split into lines, keep nonblank ones, take the first
five, trim each, rejoin. -/
def cleanStackTrace (stackTrace : String) : String :=
  String.intercalate "\n"
    ((((stackTrace.splitOn "\n").filter (fun line => strTrim line != "")).take 5).map
      strTrim)

/-- `getCategoryIcon`.  The icon strings reproduce the exact characters of
the source file (which stores mojibake-encoded emoji). -/
def getCategoryIcon (category : String) : String :=
  if category = "syntax" then "ðŸ“"
  else if category = "runtime" then "âš¡"
  else if category = "dom" then "ðŸ—ï¸"
  else if category = "security" then "ðŸ”’"
  else if category = "performance" then "â±ï¸"
  else "ðŸ’¡"

/-- The main error message of `logDetailedError`. -/
def mainErrorMsg (e : ErrorLog) : ConsoleMessage :=
  ⟨MsgType.error, "âŒ " ++ e.snippetName ++ ": " ++ e.error,
   e.timestamp, MsgSource.snippet, some e.snippetId⟩

/-- The location message of `logDetailedError`. -/
def locationMsg (e : ErrorLog) : ConsoleMessage :=
  ⟨MsgType.error,
   "ðŸ“ Error location: Line " ++ lcPart e.lineNumber ++ ":"
     ++ lcPart e.columnNumber,
   e.timestamp, MsgSource.snippet, some e.snippetId⟩

/-- The stack-trace message of `logDetailedError`. -/
def stackTraceMsg (e : ErrorLog) : ConsoleMessage :=
  ⟨MsgType.error,
   "ðŸ“‹ Stack trace:\n" ++ cleanStackTrace e.stackTrace,
   e.timestamp, MsgSource.snippet, some e.snippetId⟩

/-- One suggestion message of `logDetailedError`; `p = (suggestion,
category)`. -/
def suggestionMsg (e : ErrorLog) (p : String × String) : ConsoleMessage :=
  ⟨MsgType.info,
   getCategoryIcon p.2 ++ " Suggestion (" ++ p.2 ++ "): " ++ p.1,
   e.timestamp, MsgSource.snippet, some e.snippetId⟩

/-- The URL-context message of `logDetailedError`. -/
def urlContextMsg (e : ErrorLog) : ConsoleMessage :=
  ⟨MsgType.info, "ðŸŒ Context: " ++ e.url,
   e.timestamp, MsgSource.snippet, some e.snippetId⟩

/-- `logDetailedError`: push onto (and trim) the error history, then emit
the sequence of console messages of the source, in source order.  The guard
`errorLog.stackTrace && errorLog.stackTrace !== 'No stack trace available'`
and the guards on line/column and url follow JavaScript truthiness. -/
def logDetailedError (rt : String → String → Bool) (st : CMState)
    (e : ErrorLog) : CMState :=
  let pushedErr := st.errorHistory ++ [e]
  let st :=
    { st with
      errorHistory :=
        if pushedErr.length > st.maxHistorySize then
          sliceLast st.maxHistorySize pushedErr
        else pushedErr }
  let suggestions := getErrorSuggestions rt e.error
  let st := addMessage st (mainErrorMsg e)
  let st :=
    if jsTruthyNum e.lineNumber || jsTruthyNum e.columnNumber then
      addMessage st (locationMsg e)
    else st
  let st :=
    if e.stackTrace != "" && e.stackTrace != "No stack trace available" then
      addMessage st (stackTraceMsg e)
    else st
  let st := suggestions.foldl (fun s p => addMessage s (suggestionMsg e p)) st
  if e.url != "" && e.url != "unknown" then addMessage st (urlContextMsg e)
  else st

/-- `logError`: build an ErrorLog from a raw error and delegate to
`logDetailedError`.  The locally computed context-prefixed message of the
source is never used, so the context argument does not reach the state. -/
def logError (rt : String → String → Bool) (st : CMState) (e : JsError)
    (snippetId : Option String) (now : Nat) : CMState :=
  logDetailedError rt st
    { snippetId := if jsTruthyStr snippetId then snippetId.getD "" else "unknown"
      snippetName :=
        if jsTruthyStr snippetId then "Snippet " ++ (snippetId.getD "").take 8
        else "Anonymous script"
      error := e.message
      stackTrace :=
        match e.stack with
        | some s => if s = "" then "No stack trace available" else s
        | none => "No stack trace available"
      timestamp := now
      url := "unknown"
      lineNumber := e.lineNumber
      columnNumber := e.columnNumber }

/-- `logFromSnippet`. -/
def logFromSnippet (st : CMState) (t : MsgType) (message : String)
    (snippetId : Option String) (now : Nat) : CMState :=
  addMessage st ⟨t, message, now, MsgSource.snippet, snippetId⟩

/-- `logFromPage`. -/
def logFromPage (st : CMState) (t : MsgType) (message : String) (now : Nat) :
    CMState :=
  addMessage st ⟨t, message, now, MsgSource.page, none⟩

/-- `logExecution`: one success or failure console line.  The
`${executionTime ? ... : ''}` suffix follows JavaScript truthiness. -/
def logExecution (st : CMState) (snippetName snippetId : String)
    (success : Bool) (executionTime : Option Nat) (now : Nat) : CMState :=
  let message :=
    if success then
      "âœ… Executed \"" ++ snippetName ++ "\" successfully"
        ++ (if jsTruthyNum executionTime then
              " (" ++ toString (executionTime.getD 0) ++ "ms)"
            else "")
    else "âŒ Failed to execute \"" ++ snippetName ++ "\""
  addMessage st
    ⟨if success then MsgType.info else MsgType.error, message, now,
     MsgSource.snippet, some snippetId⟩

/-- `setMaxHistorySize`: store the new size and trim the message history
(only) when it exceeds the new size. -/
def setMaxHistorySize (st : CMState) (size : Nat) : CMState :=
  { st with
    maxHistorySize := size
    messageHistory :=
      if st.messageHistory.length > size then sliceLast size st.messageHistory
      else st.messageHistory }

/-- `clear`. -/
def cmClear (st : CMState) : CMState := { st with messageHistory := [] }

/-- `clearErrorHistory`. -/
def clearErrorHistory (st : CMState) : CMState := { st with errorHistory := [] }

/-- `clearSnippetErrors`. -/
def clearSnippetErrors (st : CMState) (snippetId : String) : CMState :=
  { st with errorHistory := st.errorHistory.filter (fun e => e.snippetId != snippetId) }

/-- `clearSnippetMessages` (also clears the snippet errors, as the source
does). -/
def clearSnippetMessages (st : CMState) (snippetId : String) : CMState :=
  let st := { st with
    messageHistory := st.messageHistory.filter (fun m => m.snippetId != some snippetId) }
  clearSnippetErrors st snippetId

/-- `getHistory` / `getErrorHistory` as pure reads (their copy semantics are
treated separately in the heap model below). -/
def getHistoryVal (st : CMState) : List ConsoleMessage := st.messageHistory

/-- Pure read of the error history. -/
def getErrorHistoryVal (st : CMState) : List ErrorLog := st.errorHistory

/-! ## ScriptInjector (src/src/services/ScriptInjector.ts)

The class fields `activeExecutions` and `resourceMonitors` (JavaScript Maps
keyed by execution id) become insertion-ordered association lists; the
`AbortController` values carry no observable state, so `activeExecutions`
keeps only its key list.  A `ResourceMonitor` is represented by the
`ResourceUsage` reading it reports when sampled at the end of the call.
The singleton `consoleManager` the injector writes through becomes a
`CMState` component of the injector state. -/

/-- `ResourceUsage` (megabytes, milliseconds, mutation count), numbers
modelled as `Nat`. -/
structure ResourceUsage where
  memoryUsage : Nat
  executionTime : Nat
  domModifications : Nat
deriving DecidableEq, Repr

/-- The `{ memoryUsage: 0, executionTime: 0, domModifications: 0 }`
fallback. -/
def zeroUsage : ResourceUsage := ⟨0, 0, 0⟩

/-- `ScriptInjectorOptions` after the constructor merged in the defaults,
so every field is present. -/
structure ScriptInjectorOptions where
  timeout : Nat
  captureConsole : Bool
  maxMemoryUsage : Nat
  enableResourceMonitoring : Bool
deriving DecidableEq, Repr

/-- The defaults the constructor installs. -/
def defaultInjectorOptions : ScriptInjectorOptions := ⟨5000, true, 50, true⟩

/-- An opaque JavaScript value, as returned by the host `eval`; only
carried through, never inspected. -/
abbrev JsValue : Type := String

/-- `ExecutionResult`.  `result` and `error` are absent (`none`) on the
branch that does not set them. -/
structure ExecutionResult where
  success : Bool
  result : Option JsValue
  error : Option JsError
  resourceUsage : ResourceUsage
  warnings : List String
deriving DecidableEq, Repr

/-- Host primitives the injector calls but does not define. -/
structure HostOracles where
  /-- `new Function(code)`: `none` when the code parses, `some msg` with the
  host syntax-error text when it throws. -/
  syntaxCheck : String → Option String
  /-- `RegExp(src, flags).test(subject)` for the fixed validator and
  suggestion-table patterns (regex source text, then subject). -/
  regexTest : String → String → Bool
  /-- `new RegExp(pattern, i)` in `matchesUrlPattern`: `none` when the
  constructor throws, otherwise the compiled case-insensitive test. -/
  regexCompile : String → Option (String → Bool)
  /-- `stack.match(/:(\d+):(\d+)/)`: the first line/column pair found in a
  stack trace, if any. -/
  stackLineCol : String → Option (Nat × Nat)

/-- Environment behaviour of one `injectScript` call: the target frame and
the settlement of `executeWithSafety` for it. -/
structure FrameEnv where
  /-- `targetFrame.contentWindow` is usable. -/
  accessible : Bool
  /-- `targetFrame.src`. -/
  src : String
  /-- The instant `new Date()` reads during this call. -/
  now : Nat
  /-- How `executeWithSafety` settles: a value, or the rejection error
  (snippet throw, timeout, or abort), after its error enhancement. -/
  evalOutcome : Except JsError JsValue
  /-- The reading the ResourceMonitor of this call reports when sampled. -/
  usage : ResourceUsage

/-- Mutable state of a ScriptInjector instance plus the console singleton it
writes through. -/
structure SIState where
  activeExecutions : List String
  resourceMonitors : List (String × ResourceUsage)
  console : CMState
deriving DecidableEq, Repr

/-- JavaScript `Map.set` on a key list: keys are unique and keep insertion
order; setting an existing key leaves the key list unchanged. -/
def mapSetKey (l : List String) (k : String) : List String :=
  if k ∈ l then l else l ++ [k]

/-- JavaScript `Map.set` on an association list. -/
def monSet (l : List (String × ResourceUsage)) (k : String)
    (v : ResourceUsage) : List (String × ResourceUsage) :=
  if k ∈ l.map Prod.fst then l.map (fun p => if p.1 = k then (k, v) else p)
  else l ++ [(k, v)]

/-- JavaScript `Map.get` on an association list. -/
def monGet (l : List (String × ResourceUsage)) (k : String) :
    Option ResourceUsage :=
  (l.find? (fun p => p.1 = k)).map Prod.snd

/-- JavaScript `Map.delete`. -/
def mapDeleteKey (l : List String) (k : String) : List String :=
  l.filter (fun x => x ≠ k)

/-- JavaScript `Map.delete` on an association list. -/
def monDelete (l : List (String × ResourceUsage)) (k : String) :
    List (String × ResourceUsage) :=
  l.filter (fun p => p.1 ≠ k)

/-- The execution id: `snippetId || 'exec_${Date.now()}'`; `genId` is the
generated fallback, chosen when `snippetId` is absent or empty (falsy). -/
def execIdOf (snippetId : Option String) (genId : String) : String :=
  match snippetId with
  | some s => if s = "" then genId else s
  | none => genId

/-- The result of `validateCode`. -/
structure ValidationResult where
  isValid : Bool
  errors : List String
  warnings : List String
deriving DecidableEq, Repr

/-- The fixed `dangerousPatterns` table: regex source and warning text, in
declaration order. -/
def dangerousPatterns : List (String × String) :=
  [ ("while\\s*\\(\\s*true\\s*\\)", "Potential infinite loop detected (while(true))"),
    ("for\\s*\\(\\s*;\\s*;\\s*\\)", "Potential infinite loop detected (for(;;))"),
    ("setInterval\\s*\\(", "setInterval detected - may cause resource leaks"),
    ("setTimeout\\s*\\([^,]*,\\s*0\\s*\\)", "setTimeout with 0 delay detected"),
    ("eval\\s*\\(", "eval() usage detected - potential security risk"),
    ("Function\\s*\\(", "Function constructor detected - potential security risk"),
    ("document\\.write\\s*\\(", "document.write() detected - may break page") ]

/-- `validateCode`: empty code short-circuits with one error; then the
heuristic warning scan; then the `new Function` syntax check.  Each pattern
is freshly built and tested once per call, so the `g` flag has no effect and
the oracle is faithful. -/
def validateCode (o : HostOracles) (code : String) : ValidationResult :=
  if strTrim code = "" then ⟨false, ["Code is empty"], []⟩
  else
    let warnings :=
      (dangerousPatterns.filter (fun p => o.regexTest p.1 code)).map Prod.snd
    let errors :=
      match o.syntaxCheck code with
      | some msg => ["Syntax error: " ++ msg]
      | none => []
    ⟨errors.isEmpty, errors, warnings⟩

/-- `createDetailedErrorLog`: line/column from the stack regex, overridden
by numeric `lineNumber`/`columnNumber` properties of the error; `stack` and
`url` default via JavaScript truthiness. -/
def createDetailedErrorLog (o : HostOracles) (e : JsError)
    (snippetId : Option String) (url : String) (now : Nat) : ErrorLog :=
  let fromStack :=
    match e.stack with
    | some s => o.stackLineCol s
    | none => none
  let lineNumber :=
    match e.lineNumber with
    | some n => some n
    | none => fromStack.map Prod.fst
  let columnNumber :=
    match e.columnNumber with
    | some n => some n
    | none => fromStack.map Prod.snd
  { snippetId := if jsTruthyStr snippetId then snippetId.getD "" else "unknown"
    snippetName :=
      if jsTruthyStr snippetId then "Snippet " ++ (snippetId.getD "").take 8
      else "Anonymous script"
    error := e.message
    stackTrace :=
      match e.stack with
      | some s => if s = "" then "No stack trace available" else s
      | none => "No stack trace available"
    timestamp := now
    url := if url = "" then "unknown" else url
    lineNumber := lineNumber
    columnNumber := columnNumber }

/-- `cleanup(executionId)`: drop the execution from the active map and
dispose (and drop) its resource monitor. -/
def cleanupExecution (st : SIState) (executionId : String) : SIState :=
  { st with
    activeExecutions := mapDeleteKey st.activeExecutions executionId
    resourceMonitors := monDelete st.resourceMonitors executionId }

/-- The display name `snippetId ? 'Snippet ' + slice : 'Anonymous script'`. -/
def displayNameOf (snippetId : Option String) : String :=
  if jsTruthyStr snippetId then "Snippet " ++ (snippetId.getD "").take 8
  else "Anonymous script"

/-- The id `snippetId || 'anonymous'` passed to `logExecution`. -/
def logIdOf (snippetId : Option String) : String :=
  if jsTruthyStr snippetId then snippetId.getD "" else "anonymous"

/-- The catch branch of `injectScript`: detailed error log, failure
execution line, resource usage from the monitor map, failed result; the
shared finally clause runs `cleanup`. -/
def injectCatch (o : HostOracles) (st : SIState) (snippetId : Option String)
    (env : FrameEnv) (e : JsError) (warnings : List String)
    (executionId : String) : SIState × ExecutionResult :=
  let errorLog := createDetailedErrorLog o e snippetId env.src env.now
  let st := { st with console := logDetailedError o.regexTest st.console errorLog }
  let st :=
    { st with
      console :=
        logExecution st.console (displayNameOf snippetId) (logIdOf snippetId)
          false none env.now }
  let resourceUsage := (monGet st.resourceMonitors executionId).getD zeroUsage
  let st := cleanupExecution st executionId
  (st, ⟨false, none, some e, resourceUsage, warnings⟩)

/-- The high-memory warning text (`toFixed(2)` float formatting abstracted
to `toString`). -/
def memWarningText (memoryUsage : Nat) : String :=
  "High memory usage detected: " ++ toString memoryUsage ++ "MB"

/-- The resource-usage info line of the success branch. -/
def resourceInfoText (u : ResourceUsage) : String :=
  "Resource usage - Memory: " ++ toString u.memoryUsage ++ "MB, DOM changes: "
    ++ toString u.domModifications

/-- `injectScript`: register the abort controller, check frame access,
start monitoring, (no-op in this model) install console capture on the
frame, validate, run `executeWithSafety`, collect usage, warn on the soft
memory ceiling, log, and always clean up.  All throws inside the try block
land in `injectCatch`; the finally clause is inlined at the end of both
branches. -/
def injectScript (opts : ScriptInjectorOptions) (o : HostOracles)
    (st : SIState) (code : String) (snippetId : Option String)
    (genId : String) (env : FrameEnv) : SIState × ExecutionResult :=
  let executionId := execIdOf snippetId genId
  let st := { st with activeExecutions := mapSetKey st.activeExecutions executionId }
  if !env.accessible then
    injectCatch o st snippetId env
      ⟨"Cannot access iframe content window - possible cross-origin restriction",
       none, none, none⟩
      [] executionId
  else
    let st :=
      if opts.enableResourceMonitoring then
        { st with resourceMonitors := monSet st.resourceMonitors executionId env.usage }
      else st
    -- setupConsoleCapture (when opts.captureConsole) rewires the frame
    -- console; it touches no injector or console-manager state.
    let v := validateCode o code
    if !v.isValid then
      injectCatch o st snippetId env
        ⟨"Code validation failed: " ++ String.intercalate ", " v.errors,
         none, none, none⟩
        [] executionId
    else
      let warnings := v.warnings
      match env.evalOutcome with
      | Except.error e => injectCatch o st snippetId env e warnings executionId
      | Except.ok value =>
        let resourceUsage :=
          if opts.enableResourceMonitoring then env.usage else zeroUsage
        let warnings :=
          if opts.maxMemoryUsage != 0
              && resourceUsage.memoryUsage > opts.maxMemoryUsage then
            warnings ++ [memWarningText resourceUsage.memoryUsage]
          else warnings
        let st :=
          { st with
            console :=
              logExecution st.console (displayNameOf snippetId)
                (logIdOf snippetId) true (some resourceUsage.executionTime)
                env.now }
        let st :=
          if resourceUsage.memoryUsage > 5 || resourceUsage.domModifications > 100 then
            { st with
              console :=
                addMessage st.console
                  ⟨MsgType.info, resourceInfoText resourceUsage, env.now,
                   MsgSource.snippet, snippetId⟩ }
          else st
        let st := cleanupExecution st executionId
        (st, ⟨true, some value, none, resourceUsage, warnings⟩)

/-- Strip `^https?:\/\/(www\.)?` (case-sensitive, as the source regex is). -/
def stripProtocolWww (s : String) : String :=
  let dropWww := fun (r : String) => if strStartsWith r "www." then r.drop 4 else r
  if strStartsWith s "https://" then dropWww (s.drop 8)
  else if strStartsWith s "http://" then dropWww (s.drop 7)
  else s

/-- The metacharacter probe of `matchesUrlPattern`. -/
def hasRegexMeta (pattern : String) : Bool :=
  strHasChar pattern '\\' || strHasChar pattern '^' || strHasChar pattern '$'
    || strHasChar pattern '[' || strHasChar pattern ']'

/-- `matchesUrlPattern`: match-all specials; regex branch against the
original url when a metacharacter occurs (a throwing `RegExp` constructor is
caught and yields false); `*.`-wildcard containment; plain containment.
The surrounding try/catch can only be entered by the `RegExp` constructor,
so the function is total. -/
def matchesUrlPattern (compile : String → Option (String → Bool))
    (url pattern : String) : Bool :=
  if pattern = "" || pattern = ".*" || pattern = "*" then true
  else
    let cleanUrl := strToLower (stripProtocolWww url)
    if hasRegexMeta pattern then
      match compile pattern with
      | some test => test url
      | none => false
    else
      let cleanPattern := strToLower (stripProtocolWww pattern)
      if strStartsWith cleanPattern "*." then
        strIncludes cleanUrl (cleanPattern.drop 2)
      else strIncludes cleanUrl cleanPattern

/-- `executeImmediate`: a disabled snippet short-circuits with a failed
result (the host-assigned stack of the fresh `Error` is not modelled);
otherwise delegate to `injectScript`. -/
def executeImmediate (opts : ScriptInjectorOptions) (o : HostOracles)
    (st : SIState) (snippet : Snippet) (genId : String) (env : FrameEnv) :
    SIState × ExecutionResult :=
  if !snippet.enabled then
    (st, ⟨false, none, some ⟨"Snippet is disabled", none, none, none⟩,
          zeroUsage, []⟩)
  else injectScript opts o st snippet.code (some snippet.id) genId env

/-- The auto-run loop body of `executeOnLoad`: iterate the snippets in array
order; for each enabled, on-load, pattern-matching snippet run
`injectScript` (awaited: the state threads sequentially) and record its id;
a failed result only reaches the host console and never stops the loop.
`envf`/`genf` give the per-call environment and generated id. -/
def runSnippets (opts : ScriptInjectorOptions) (o : HostOracles)
    (envf : Snippet → FrameEnv) (genf : Snippet → String) (url : String) :
    SIState → List Snippet → SIState × List String
  | st, [] => (st, [])
  | st, s :: rest =>
    if s.enabled && s.executeOnLoad
        && matchesUrlPattern o.regexCompile url s.urlPattern then
      let p := injectScript opts o st s.code (some s.id) (genf s) (envf s)
      let q := runSnippets opts o envf genf url p.1 rest
      (q.1, s.id :: q.2)
    else runSnippets opts o envf genf url st rest

/-- Outcome of `executeOnLoad`: the loop ran now, or was deferred to the one
shot load listener. -/
inductive LoadOutcome where
  | ran (st : SIState) (executed : List String)
  | deferred

/-- `executeOnLoad`: run the loop now when `contentDocument` exists and
`readyState === 'complete'` (condition folded into `docComplete`), else
defer it to the load event. -/
def executeOnLoad (opts : ScriptInjectorOptions) (o : HostOracles)
    (envf : Snippet → FrameEnv) (genf : Snippet → String) (url : String)
    (st : SIState) (snippets : List Snippet) (docComplete : Bool) :
    LoadOutcome :=
  if docComplete then
    let p := runSnippets opts o envf genf url st snippets
    LoadOutcome.ran p.1 p.2
  else LoadOutcome.deferred

/-! ## Array identity model for the history getters

`getHistory` and `getErrorHistory` return `[...history]`: a freshly
allocated array whose contents copy the internal one.  To state that the
copy is fresh, JavaScript arrays of each element type live in a heap (a list
of arrays) and are referred to by index; the ConsoleManager fields hold
references; allocation appends to the heap. -/

/-- Allocate a new array in the heap; returns the heap and the new
reference. -/
def heapAlloc (h : List (List α)) (v : List α) : List (List α) × Nat :=
  (h ++ [v], h.length)

/-- Read an array out of the heap (a dangling reference reads as empty). -/
def heapGet (h : List (List α)) (r : Nat) : List α :=
  h.getD r []

/-- Overwrite the array a reference points to (models mutating it). -/
def heapSet (h : List (List α)) (r : Nat) (v : List α) : List (List α) :=
  h.set r v

/-- The references a ConsoleManager instance holds to its two history
arrays. -/
structure CMRefs where
  msgRef : Nat
  errRef : Nat

/-- `getHistory(): return [...this.messageHistory]` — allocate a copy of
the referenced array and hand back the new reference. -/
def getHistory (msgHeap : List (List ConsoleMessage)) (refs : CMRefs) :
    List (List ConsoleMessage) × Nat :=
  heapAlloc msgHeap (heapGet msgHeap refs.msgRef)

/-- `getErrorHistory(): return [...this.errorHistory]`. -/
def getErrorHistory (errHeap : List (List ErrorLog)) (refs : CMRefs) :
    List (List ErrorLog) × Nat :=
  heapAlloc errHeap (heapGet errHeap refs.errRef)

/-! ## ConsoleManager operations as a transition system

Every state-mutating public method becomes one operation, so that the
bounded-history invariant can be stated over reachable states. -/

/-- One ConsoleManager call. -/
inductive CMOp where
  | addMessage (m : ConsoleMessage)
  | logDetailedError (e : ErrorLog)
  | logError (e : JsError) (snippetId : Option String) (now : Nat)
  | logFromSnippet (t : MsgType) (message : String) (snippetId : Option String) (now : Nat)
  | logFromPage (t : MsgType) (message : String) (now : Nat)
  | logExecution (snippetName snippetId : String) (success : Bool) (time : Option Nat) (now : Nat)
  | setMaxHistorySize (size : Nat)
  | clear
  | clearErrorHistory
  | clearSnippetErrors (snippetId : String)
  | clearSnippetMessages (snippetId : String)

/-- Effect of one call on the ConsoleManager state. -/
def cmStep (rt : String → String → Bool) : CMOp → CMState → CMState
  | CMOp.addMessage m, st => addMessage st m
  | CMOp.logDetailedError e, st => logDetailedError rt st e
  | CMOp.logError e sid now, st => logError rt st e sid now
  | CMOp.logFromSnippet t msg sid now, st => logFromSnippet st t msg sid now
  | CMOp.logFromPage t msg now, st => logFromPage st t msg now
  | CMOp.logExecution name sid success time now, st =>
      logExecution st name sid success time now
  | CMOp.setMaxHistorySize n, st => setMaxHistorySize st n
  | CMOp.clear, st => cmClear st
  | CMOp.clearErrorHistory, st => clearErrorHistory st
  | CMOp.clearSnippetErrors sid, st => clearSnippetErrors st sid
  | CMOp.clearSnippetMessages sid, st => clearSnippetMessages st sid

/-- Run a call sequence from a state. -/
def cmRun (rt : String → String → Bool) (ops : List CMOp) (st : CMState) :
    CMState :=
  ops.foldl (fun s op => cmStep rt op s) st

/-- The call configures a positive capacity (a capacity of `0` makes
`slice(-0)` a no-op trim). -/
def opPos : CMOp → Prop
  | CMOp.setMaxHistorySize n => 1 ≤ n
  | _ => True

/-- The call is a `setMaxHistorySize`. -/
def isSetMax : CMOp → Prop
  | CMOp.setMaxHistorySize _ => True
  | _ => False

/-- The console messages one `logDetailedError` call emits, in emission
order, read off the source: main error text, location when line/column is
truthy, cleaned stack trace when present and meaningful, one per matching
suggestion rule in table order, and the url context when known. -/
def logDetailedErrorEmits (rt : String → String → Bool) (e : ErrorLog) :
    List ConsoleMessage :=
  [mainErrorMsg e]
    ++ (if jsTruthyNum e.lineNumber || jsTruthyNum e.columnNumber then
          [locationMsg e]
        else [])
    ++ (if e.stackTrace != "" && e.stackTrace != "No stack trace available" then
          [stackTraceMsg e]
        else [])
    ++ (getErrorSuggestions rt e.error).map (suggestionMsg e)
    ++ (if e.url != "" && e.url != "unknown" then [urlContextMsg e] else [])

/-- Modelled from the spec, for comparison with the code: the messages
claim C2 says `logDetailedError` emits — the same enumeration but with no
stack-trace message, since the claim lists only the error text, the
line/column, the matched suggestions and the originating location. -/
def specLogDetailedErrorEmits (rt : String → String → Bool) (e : ErrorLog) :
    List ConsoleMessage :=
  [mainErrorMsg e]
    ++ (if jsTruthyNum e.lineNumber || jsTruthyNum e.columnNumber then
          [locationMsg e]
        else [])
    ++ (getErrorSuggestions rt e.error).map (suggestionMsg e)
    ++ (if e.url != "" && e.url != "unknown" then [urlContextMsg e] else [])

/-! ## Concrete fixtures used to instantiate the theorems -/

/-- A regex oracle on which no pattern matches (consistent with the real
suggestion regexes on subjects that contain none of their literals). -/
def rtFalse : String → String → Bool := fun _ _ => false

/-- A regex oracle by literal containment (consistent with the real
suggestion regexes on the subjects it is applied to below). -/
def rtIncludes : String → String → Bool := fun p s => strIncludes s p

/-- Host oracles for runs whose code is syntactically fine, matches no
heuristic pattern, and never reaches a regex URL pattern. -/
def oracleStub : HostOracles :=
  ⟨fun _ => none, fun _ _ => false, fun _ => none, fun _ => none⟩

/-- A fresh injector state over the default console manager. -/
def emptySIState : SIState := ⟨[], [], initCMState⟩

/-- An accessible frame whose execution succeeds. -/
def envOk : FrameEnv := ⟨true, "https://host/page", 7, Except.ok "v", ⟨0, 3, 0⟩⟩

/-- An accessible frame whose execution rejects with a thrown error. -/
def envErr : FrameEnv :=
  ⟨true, "https://host/page", 7, Except.error ⟨"boom", none, none, none⟩,
   zeroUsage⟩

/-- A frame with no usable content window. -/
def envInaccessible : FrameEnv := ⟨false, "", 0, Except.ok "", zeroUsage⟩

/-- Enabled on-load snippet whose pattern matches the fixture url. -/
def snipA : Snippet := ⟨"a", "A", "1", "example.com", true, 0, 0, true⟩

/-- Disabled on-load snippet whose pattern matches the fixture url. -/
def snipB : Snippet := ⟨"b", "B", "1", "example.com", false, 0, 0, true⟩

/-- Enabled on-load snippet whose pattern does not match the fixture url. -/
def snipC : Snippet := ⟨"c", "C", "1", "other.com", true, 0, 0, true⟩

/-- An error log with a meaningful stack trace and nothing else optional. -/
def cexStackLog : ErrorLog :=
  ⟨"s1", "Snippet s1", "x", "at run (snippet:1:2)", 0, "unknown", none, none⟩

/-- An error log where every optional part of the detailed report is
present. -/
def fullLog : ErrorLog :=
  ⟨"s1", "Snippet s1", "Unexpected token x", "at run (snippet:3:4)", 5,
   "https://a", some 3, some 4⟩

/-! ## Helper lemmas -/

/-- Length of a trailing slice for a positive capacity. -/
theorem length_sliceLast {α : Type} (max : Nat) (l : List α) (h : max ≠ 0) :
    (sliceLast max l).length = l.length - (l.length - max) := by
  simp [sliceLast, h]

/-- `addMessage` leaves the capacity unchanged. -/
theorem addMessage_maxHistorySize (st : CMState) (m : ConsoleMessage) :
    (addMessage st m).maxHistorySize = st.maxHistorySize := rfl

/-- `addMessage` leaves the error history unchanged. -/
theorem addMessage_errorHistory (st : CMState) (m : ConsoleMessage) :
    (addMessage st m).errorHistory = st.errorHistory := rfl

/-- The message history written by `addMessage`, as an equation. -/
theorem addMessage_messageHistory (st : CMState) (m : ConsoleMessage) :
    (addMessage st m).messageHistory =
      if (st.messageHistory ++ [m]).length > st.maxHistorySize then
        sliceLast st.maxHistorySize (st.messageHistory ++ [m])
      else st.messageHistory ++ [m] := rfl

/-- With a positive capacity, `addMessage` re-establishes the message
bound. -/
theorem addMessage_length_le (st : CMState) (m : ConsoleMessage)
    (h : 1 ≤ st.maxHistorySize) :
    (addMessage st m).messageHistory.length ≤ st.maxHistorySize := by
  rw [addMessage_messageHistory]
  split_ifs with hc
  · rw [length_sliceLast _ _ (by omega)]
    omega
  · omega

/-- Under capacity, `addMessage` appends without trimming. -/
theorem addMessage_append (st : CMState) (m : ConsoleMessage)
    (h : st.messageHistory.length < st.maxHistorySize) :
    (addMessage st m).messageHistory = st.messageHistory ++ [m] := by
  rw [addMessage_messageHistory, if_neg]
  simp
  omega

/-- Folding `addMessage` never touches the error history. -/
theorem foldl_addMessage_errorHistory (msgs : List ConsoleMessage)
    (st : CMState) :
    (msgs.foldl addMessage st).errorHistory = st.errorHistory := by
  induction msgs generalizing st with
  | nil => rfl
  | cons m t ih => rw [List.foldl_cons, ih, addMessage_errorHistory]

/-- Folding `addMessage` never touches the capacity. -/
theorem foldl_addMessage_maxHistorySize (msgs : List ConsoleMessage)
    (st : CMState) :
    (msgs.foldl addMessage st).maxHistorySize = st.maxHistorySize := by
  induction msgs generalizing st with
  | nil => rfl
  | cons m t ih => rw [List.foldl_cons, ih, addMessage_maxHistorySize]

/-- Folding `addMessage` preserves the message bound when the capacity is
positive. -/
theorem foldl_addMessage_length_le (msgs : List ConsoleMessage)
    (st : CMState) (h1 : 1 ≤ st.maxHistorySize)
    (h2 : st.messageHistory.length ≤ st.maxHistorySize) :
    (msgs.foldl addMessage st).messageHistory.length ≤
      (msgs.foldl addMessage st).maxHistorySize := by
  induction msgs generalizing st with
  | nil => simpa using h2
  | cons m t ih =>
    rw [List.foldl_cons]
    exact ih (addMessage st m)
      (by rw [addMessage_maxHistorySize]; exact h1)
      (by rw [addMessage_maxHistorySize]; exact addMessage_length_le st m h1)

/-- Under sufficient capacity, folding `addMessage` appends the whole
message list in order with no trimming. -/
theorem foldl_addMessage_append (msgs : List ConsoleMessage) (st : CMState)
    (h : st.messageHistory.length + msgs.length ≤ st.maxHistorySize) :
    (msgs.foldl addMessage st).messageHistory = st.messageHistory ++ msgs := by
  induction msgs generalizing st with
  | nil => simp
  | cons m t ih =>
    rw [List.foldl_cons]
    have hm : (addMessage st m).messageHistory = st.messageHistory ++ [m] :=
      addMessage_append st m (by simp at h; omega)
    have := ih (addMessage st m)
      (by rw [addMessage_maxHistorySize, hm]; simp at h ⊢; omega)
    rw [this, hm]
    simp

/-- `logDetailedError` is the error-history push/trim followed by folding
`addMessage` over exactly the emitted message list. -/
theorem logDetailedError_eq_foldl (rt : String → String → Bool)
    (st : CMState) (e : ErrorLog) :
    logDetailedError rt st e =
      (logDetailedErrorEmits rt e).foldl addMessage
        { st with
          errorHistory :=
            if (st.errorHistory ++ [e]).length > st.maxHistorySize then
              sliceLast st.maxHistorySize (st.errorHistory ++ [e])
            else st.errorHistory ++ [e] } := by
  unfold logDetailedError logDetailedErrorEmits
  by_cases h1 : (jsTruthyNum e.lineNumber || jsTruthyNum e.columnNumber) = true <;>
    by_cases h2 : (e.stackTrace != "" && e.stackTrace != "No stack trace available") = true <;>
      by_cases h3 : (e.url != "" && e.url != "unknown") = true <;>
        simp [h1, h2, h3, List.foldl_append, List.foldl_map]

/-- The error history written by `logDetailedError`, as an equation. -/
theorem logDetailedError_errorHistory (rt : String → String → Bool)
    (st : CMState) (e : ErrorLog) :
    (logDetailedError rt st e).errorHistory =
      if (st.errorHistory ++ [e]).length > st.maxHistorySize then
        sliceLast st.maxHistorySize (st.errorHistory ++ [e])
      else st.errorHistory ++ [e] := by
  rw [logDetailedError_eq_foldl, foldl_addMessage_errorHistory]

/-- `logDetailedError` leaves the capacity unchanged. -/
theorem logDetailedError_maxHistorySize (rt : String → String → Bool)
    (st : CMState) (e : ErrorLog) :
    (logDetailedError rt st e).maxHistorySize = st.maxHistorySize := by
  rw [logDetailedError_eq_foldl, foldl_addMessage_maxHistorySize]

/-- Under capacity, `logDetailedError` appends exactly one error log. -/
theorem logDetailedError_errorHistory_append (rt : String → String → Bool)
    (st : CMState) (e : ErrorLog)
    (h : st.errorHistory.length < st.maxHistorySize) :
    (logDetailedError rt st e).errorHistory = st.errorHistory ++ [e] := by
  rw [logDetailedError_errorHistory, if_neg]
  simp
  omega

/-- With a positive capacity, `logDetailedError` re-establishes the error
bound. -/
theorem logDetailedError_err_le (rt : String → String → Bool) (st : CMState)
    (e : ErrorLog) (h : 1 ≤ st.maxHistorySize) :
    (logDetailedError rt st e).errorHistory.length ≤ st.maxHistorySize := by
  rw [logDetailedError_errorHistory]
  split_ifs with hc
  · rw [length_sliceLast _ _ (by omega)]
    omega
  · omega

/-- With a positive capacity, `logDetailedError` preserves the message
bound. -/
theorem logDetailedError_msg_le (rt : String → String → Bool) (st : CMState)
    (e : ErrorLog) (h1 : 1 ≤ st.maxHistorySize)
    (h2 : st.messageHistory.length ≤ st.maxHistorySize) :
    (logDetailedError rt st e).messageHistory.length ≤
      (logDetailedError rt st e).maxHistorySize := by
  rw [logDetailedError_eq_foldl]
  exact foldl_addMessage_length_le _ _ h1 h2

/-- Under sufficient capacity, `logDetailedError` appends exactly the
emitted message list. -/
theorem logDetailedError_messageHistory_append (rt : String → String → Bool)
    (st : CMState) (e : ErrorLog)
    (h : st.messageHistory.length + (logDetailedErrorEmits rt e).length ≤
      st.maxHistorySize) :
    (logDetailedError rt st e).messageHistory =
      st.messageHistory ++ logDetailedErrorEmits rt e := by
  rw [logDetailedError_eq_foldl]
  exact foldl_addMessage_append _ _ h

/-- The message history written by `setMaxHistorySize`, as an equation. -/
theorem setMaxHistorySize_messageHistory (st : CMState) (n : Nat) :
    (setMaxHistorySize st n).messageHistory =
      if st.messageHistory.length > n then sliceLast n st.messageHistory
      else st.messageHistory := rfl

/-- `setMaxHistorySize` installs the new capacity. -/
theorem setMaxHistorySize_maxHistorySize (st : CMState) (n : Nat) :
    (setMaxHistorySize st n).maxHistorySize = n := rfl

/-- `setMaxHistorySize` leaves the error history unchanged. -/
theorem setMaxHistorySize_errorHistory (st : CMState) (n : Nat) :
    (setMaxHistorySize st n).errorHistory = st.errorHistory := rfl

/-- One ConsoleManager call keeps the message bound and a positive
capacity, provided capacities are positive. -/
theorem cmStep_messageBound (rt : String → String → Bool) (op : CMOp)
    (st : CMState) (h1 : 1 ≤ st.maxHistorySize) (hop : opPos op)
    (h2 : st.messageHistory.length ≤ st.maxHistorySize) :
    (cmStep rt op st).messageHistory.length ≤ (cmStep rt op st).maxHistorySize
    ∧ 1 ≤ (cmStep rt op st).maxHistorySize := by
  cases op with
  | addMessage m =>
    exact ⟨addMessage_length_le st m h1, h1⟩
  | logDetailedError e =>
    refine ⟨logDetailedError_msg_le rt st e h1 h2, ?_⟩
    rw [cmStep, logDetailedError_maxHistorySize]
    exact h1
  | logError e sid now =>
    refine ⟨logDetailedError_msg_le rt st _ h1 h2, ?_⟩
    rw [cmStep, logError, logDetailedError_maxHistorySize]
    exact h1
  | logFromSnippet t msg sid now =>
    exact ⟨addMessage_length_le st _ h1, h1⟩
  | logFromPage t msg now =>
    exact ⟨addMessage_length_le st _ h1, h1⟩
  | logExecution name sid success time now =>
    exact ⟨addMessage_length_le st _ h1, h1⟩
  | setMaxHistorySize n =>
    have hn : 1 ≤ n := hop
    refine ⟨?_, hn⟩
    rw [cmStep, setMaxHistorySize_messageHistory, setMaxHistorySize_maxHistorySize]
    split_ifs with hc
    · rw [length_sliceLast _ _ (by omega)]
      omega
    · omega
  | clear =>
    exact ⟨by simp [cmStep, cmClear], h1⟩
  | clearErrorHistory =>
    exact ⟨h2, h1⟩
  | clearSnippetErrors sid =>
    exact ⟨h2, h1⟩
  | clearSnippetMessages sid =>
    refine ⟨?_, h1⟩
    simp only [cmStep, clearSnippetMessages, clearSnippetErrors]
    exact le_trans (List.length_filter_le _ _) h2

/-- Every ConsoleManager call other than `setMaxHistorySize` keeps the
error bound, provided the capacity is positive. -/
theorem cmStep_errorBound (rt : String → String → Bool) (op : CMOp)
    (st : CMState) (h1 : 1 ≤ st.maxHistorySize) (hns : ¬ isSetMax op)
    (h2 : st.errorHistory.length ≤ st.maxHistorySize) :
    (cmStep rt op st).errorHistory.length ≤ (cmStep rt op st).maxHistorySize := by
  cases op with
  | addMessage m =>
    rw [cmStep, addMessage_errorHistory, addMessage_maxHistorySize]
    exact h2
  | logDetailedError e =>
    rw [cmStep, logDetailedError_maxHistorySize]
    exact logDetailedError_err_le rt st e h1
  | logError e sid now =>
    rw [cmStep, logError, logDetailedError_maxHistorySize]
    exact logDetailedError_err_le rt st _ h1
  | logFromSnippet t msg sid now =>
    rw [cmStep, logFromSnippet, addMessage_errorHistory, addMessage_maxHistorySize]
    exact h2
  | logFromPage t msg now =>
    rw [cmStep, logFromPage, addMessage_errorHistory, addMessage_maxHistorySize]
    exact h2
  | logExecution name sid success time now =>
    rw [cmStep]
    rw [logExecution, addMessage_errorHistory, addMessage_maxHistorySize]
    exact h2
  | setMaxHistorySize n =>
    exact absurd trivial hns
  | clear =>
    simpa [cmStep, cmClear] using h2
  | clearErrorHistory =>
    simp [cmStep, clearErrorHistory]
  | clearSnippetErrors sid =>
    simp only [cmStep, clearSnippetErrors]
    exact le_trans (List.length_filter_le _ _) h2
  | clearSnippetMessages sid =>
    simp only [cmStep, clearSnippetMessages, clearSnippetErrors]
    exact le_trans (List.length_filter_le _ _) h2

/-- Deleting a key that is not in a list is a no-op. -/
theorem mapDeleteKey_not_mem (l : List String) (k : String) (h : k ∉ l) :
    mapDeleteKey l k = l := by
  unfold mapDeleteKey
  refine List.filter_eq_self.mpr ?_
  intro a ha
  exact decide_eq_true (by rintro rfl; exact h ha)

/-- Registering a fresh key and then deleting it restores the key list. -/
theorem mapDeleteKey_mapSetKey (l : List String) (k : String) (h : k ∉ l) :
    mapDeleteKey (mapSetKey l k) k = l := by
  unfold mapSetKey
  rw [if_neg h]
  unfold mapDeleteKey
  rw [List.filter_append, ← mapDeleteKey, mapDeleteKey_not_mem l k h]
  simp

/-- The active map after the catch branch: the console writes leave it
alone and the finally clause deletes the execution id. -/
theorem injectCatch_activeExecutions (o : HostOracles) (st : SIState)
    (sid : Option String) (env : FrameEnv) (e : JsError)
    (warnings : List String) (executionId : String) :
    (injectCatch o st sid env e warnings executionId).1.activeExecutions =
      mapDeleteKey st.activeExecutions executionId := rfl

/-- The console state after the catch branch. -/
theorem injectCatch_console (o : HostOracles) (st : SIState)
    (sid : Option String) (env : FrameEnv) (e : JsError)
    (warnings : List String) (executionId : String) :
    (injectCatch o st sid env e warnings executionId).1.console =
      logExecution
        (logDetailedError o.regexTest st.console
          (createDetailedErrorLog o e sid env.src env.now))
        (displayNameOf sid) (logIdOf sid) false none env.now := rfl

/-- The result of the catch branch. -/
theorem injectCatch_result (o : HostOracles) (st : SIState)
    (sid : Option String) (env : FrameEnv) (e : JsError)
    (warnings : List String) (executionId : String) :
    (injectCatch o st sid env e warnings executionId).2 =
      ⟨false, none, some e,
       (monGet st.resourceMonitors executionId).getD zeroUsage, warnings⟩ := rfl

/-- `logExecution` leaves the error history unchanged. -/
theorem logExecution_errorHistory (st : CMState) (n i : String) (s : Bool)
    (t : Option Nat) (now : Nat) :
    (logExecution st n i s t now).errorHistory = st.errorHistory := rfl

/-- On every branch of `injectScript` (inaccessible frame, validation
failure, rejection, success) the finally clause deletes exactly the id the
call registered. -/
theorem injectScript_activeExecutions (opts : ScriptInjectorOptions)
    (o : HostOracles) (st : SIState) (code : String) (sid : Option String)
    (genId : String) (env : FrameEnv) :
    (injectScript opts o st code sid genId env).1.activeExecutions =
      mapDeleteKey (mapSetKey st.activeExecutions (execIdOf sid genId))
        (execIdOf sid genId) := by
  obtain ⟨acc, src, now, outcome, usage⟩ := env
  cases acc <;> cases outcome <;>
    simp only [injectScript, injectCatch_activeExecutions, cleanupExecution,
      Bool.not_false, Bool.not_true, if_true, if_false] <;>
    split_ifs <;> rfl

/-! ## Claim theorems -/

/-- Claim C1: after every `injectScript` call settles — success, validation
failure, throw, timeout or abort — the execution id has been removed from
the active-execution map exactly once, so the map (and hence its size) is
back to its pre-call value; the hypothesis says the id was not already
active, which holds at every sequentially reachable call site since every
call removes its id before returning. -/
theorem injectScript_restores_active_map (opts : ScriptInjectorOptions)
    (o : HostOracles) (st : SIState) (code : String) (sid : Option String)
    (genId : String) (env : FrameEnv)
    (h : execIdOf sid genId ∉ st.activeExecutions) :
    (injectScript opts o st code sid genId env).1.activeExecutions =
      st.activeExecutions
    ∧ (injectScript opts o st code sid genId env).1.activeExecutions.length =
      st.activeExecutions.length
    ∧ execIdOf sid genId ∉
      (injectScript opts o st code sid genId env).1.activeExecutions := by
  have key := injectScript_activeExecutions opts o st code sid genId env
  rw [mapDeleteKey_mapSetKey _ _ h] at key
  exact ⟨key, by rw [key], by rw [key]; exact h⟩

/-- Closed instance of C1: a run that succeeds on a fresh map leaves the
map empty again. -/
theorem injectScript_restores_active_map_witness :
    (injectScript defaultInjectorOptions oracleStub emptySIState "1"
      (some "s") "g" envOk).1.activeExecutions =
      emptySIState.activeExecutions :=
  (injectScript_restores_active_map defaultInjectorOptions oracleStub
    emptySIState "1" (some "s") "g" envOk (by decide)).1

/-- Claim C2 (amended): `logDetailedError` appends the ErrorLog to the
error history and emits exactly: one error message carrying the error text,
one error message for line/column when either is present (and nonzero), one
error message carrying the cleaned stack trace when the stack trace is
nonempty and not the placeholder, one informational message per suggestion
rule whose pattern matches the error text (all matching rules, in
table-declaration order), and one informational message for the originating
location when it is known — under capacity, so no trim interferes. -/
theorem logDetailedError_emits_messages (rt : String → String → Bool)
    (st : CMState) (e : ErrorLog)
    (hmsg : st.messageHistory.length + (logDetailedErrorEmits rt e).length ≤
      st.maxHistorySize)
    (herr : st.errorHistory.length < st.maxHistorySize) :
    (logDetailedError rt st e).errorHistory = st.errorHistory ++ [e]
    ∧ (logDetailedError rt st e).messageHistory =
      st.messageHistory ++ logDetailedErrorEmits rt e :=
  ⟨logDetailedError_errorHistory_append rt st e herr,
   logDetailedError_messageHistory_append rt st e hmsg⟩

/-- Closed instance of the amended C2 on a fully populated error log. -/
theorem logDetailedError_emits_messages_witness :
    (logDetailedError rtIncludes initCMState fullLog).errorHistory = [fullLog]
    ∧ (logDetailedError rtIncludes initCMState fullLog).messageHistory =
      logDetailedErrorEmits rtIncludes fullLog := by
  have h := logDetailedError_emits_messages rtIncludes initCMState fullLog
    (by decide) (by decide)
  exact ⟨by simpa using h.1, by simpa using h.2⟩

/-- Claim C2 counterexample: on an error log with a meaningful stack trace,
the code also emits a stack-trace error message, so it emits two messages
where the claim enumerates exactly one. -/
theorem logDetailedError_claim_counterexample :
    (logDetailedError rtFalse initCMState cexStackLog).messageHistory ≠
      initCMState.messageHistory ++ specLogDetailedErrorEmits rtFalse cexStackLog
    ∧ (logDetailedError rtFalse initCMState cexStackLog).messageHistory.length = 2
    ∧ (specLogDetailedErrorEmits rtFalse cexStackLog).length = 1 := by
  refine ⟨?_, ?_, ?_⟩ <;> decide

/-- Claim C3 (amended): with positive configured capacities, the message
history never exceeds the capacity at any state reachable by ConsoleManager
calls, eviction is oldest-first (`addMessage` keeps a final segment of the
pushed history), and every operation except `setMaxHistorySize` preserves
the error-history bound; `setMaxHistorySize` trims only the message
history, so the error history can exceed a newly lowered capacity. -/
theorem consoleManager_history_bounds (rt : String → String → Bool) :
    (∀ (st : CMState) (ops : List CMOp), 1 ≤ st.maxHistorySize →
      st.messageHistory.length ≤ st.maxHistorySize →
      (∀ op ∈ ops, opPos op) →
      (cmRun rt ops st).messageHistory.length ≤
        (cmRun rt ops st).maxHistorySize)
    ∧ (∀ (st : CMState) (m : ConsoleMessage), 1 ≤ st.maxHistorySize →
      (addMessage st m).messageHistory =
        (st.messageHistory ++ [m]).drop
          (st.messageHistory.length + 1 - st.maxHistorySize))
    ∧ (∀ (st : CMState) (op : CMOp), 1 ≤ st.maxHistorySize → ¬ isSetMax op →
      st.errorHistory.length ≤ st.maxHistorySize →
      (cmStep rt op st).errorHistory.length ≤
        (cmStep rt op st).maxHistorySize) := by
  refine ⟨?_, ?_, ?_⟩
  · intro st ops
    induction ops generalizing st with
    | nil => intro _ h2 _; simpa [cmRun] using h2
    | cons op t ih =>
      intro h1 h2 hops
      have hstep := cmStep_messageBound rt op st h1 (hops op (by simp)) h2
      have hrun : cmRun rt (op :: t) st = cmRun rt t (cmStep rt op st) := rfl
      rw [hrun]
      exact ih (cmStep rt op st) hstep.2 hstep.1 (fun x hx => hops x (by simp [hx]))
  · intro st m h1
    rw [addMessage_messageHistory]
    have hlen : (st.messageHistory ++ [m]).length = st.messageHistory.length + 1 := by
      simp
    split_ifs with hc
    · unfold sliceLast
      rw [if_neg (by omega), hlen]
    · rw [hlen] at hc
      have h0 : st.messageHistory.length + 1 - st.maxHistorySize = 0 := by omega
      rw [h0, List.drop_zero]
  · intro st op h1 hns h2
    exact cmStep_errorBound rt op st h1 hns h2

/-- Closed instance of the amended C3: one append on the default manager
stays within the bound. -/
theorem consoleManager_history_bounds_witness :
    (cmRun rtFalse [CMOp.addMessage ⟨MsgType.log, "m", 0, MsgSource.page, none⟩]
      initCMState).messageHistory.length ≤
      (cmRun rtFalse [CMOp.addMessage ⟨MsgType.log, "m", 0, MsgSource.page, none⟩]
        initCMState).maxHistorySize :=
  (consoleManager_history_bounds rtFalse).1 initCMState _ (by decide) (by decide)
    (by intro op hop; rw [List.mem_singleton] at hop; subst hop; trivial)

/-- Claim C3 counterexample: after two detailed errors, lowering the
capacity to 1 leaves two entries in the error history — `setMaxHistorySize`
does not trim the error history, so the reachable-state bound of the claim
fails. -/
theorem consoleManager_error_bound_counterexample :
    (cmRun rtFalse
        [CMOp.logDetailedError cexStackLog, CMOp.logDetailedError cexStackLog,
         CMOp.setMaxHistorySize 1] initCMState).maxHistorySize = 1
    ∧ 1 < (cmRun rtFalse
        [CMOp.logDetailedError cexStackLog, CMOp.logDetailedError cexStackLog,
         CMOp.setMaxHistorySize 1] initCMState).errorHistory.length := by
  exact ⟨by decide, by decide⟩

/-- Claim C4: with the document already complete, `executeOnLoad` runs the
loop now and executes, strictly in array order and sequentially (the state
threads through each awaited call), exactly the snippets that are enabled,
marked executeOnLoad, and whose pattern matches the location — for every
outcome environment, so a failing execution never stops the iteration. -/
theorem executeOnLoad_runs_matching (opts : ScriptInjectorOptions)
    (o : HostOracles) (envf : Snippet → FrameEnv) (genf : Snippet → String)
    (url : String) (st : SIState) (snippets : List Snippet) :
    (runSnippets opts o envf genf url st snippets).2 =
      (snippets.filter (fun s => s.enabled && s.executeOnLoad
        && matchesUrlPattern o.regexCompile url s.urlPattern)).map Snippet.id
    ∧ ∀ docComplete : Bool, docComplete = true →
      executeOnLoad opts o envf genf url st snippets docComplete =
        LoadOutcome.ran (runSnippets opts o envf genf url st snippets).1
          (runSnippets opts o envf genf url st snippets).2 := by
  constructor
  · induction snippets generalizing st with
    | nil => rfl
    | cons s rest ih =>
      by_cases hc : (s.enabled && s.executeOnLoad
          && matchesUrlPattern o.regexCompile url s.urlPattern) = true
      · simp [runSnippets, hc, List.filter_cons, ih]
      · simp [runSnippets, hc, List.filter_cons, ih]
  · intro d hd
    subst hd
    rfl

/-- Closed instance of C4 on the triple [A enabled+match, B disabled,
C no-match] with a failing execution environment: exactly A runs. -/
theorem executeOnLoad_runs_matching_witness :
    executeOnLoad defaultInjectorOptions oracleStub (fun _ => envErr)
      (fun _ => "g") "https://www.example.com/x" emptySIState
      [snipA, snipB, snipC] true =
      LoadOutcome.ran
        (runSnippets defaultInjectorOptions oracleStub (fun _ => envErr)
          (fun _ => "g") "https://www.example.com/x" emptySIState
          [snipA, snipB, snipC]).1
        ["a"] := by
  have h := executeOnLoad_runs_matching defaultInjectorOptions oracleStub
    (fun _ => envErr) (fun _ => "g") "https://www.example.com/x" emptySIState
    [snipA, snipB, snipC]
  rw [h.2 true rfl, h.1]
  congr 1

/-- Claim C5: on an accessible frame with code that passes validation, a
rejected evaluation yields `success = false` and appends exactly one
ErrorLog (under capacity), while an evaluation that completes without
throwing yields `success = true` and appends no ErrorLog. -/
theorem injectScript_error_logging (opts : ScriptInjectorOptions)
    (o : HostOracles) (st : SIState) (code : String) (sid : Option String)
    (genId : String) (env : FrameEnv)
    (hacc : env.accessible = true)
    (hvalid : (validateCode o code).isValid = true) :
    (∀ e : JsError, env.evalOutcome = Except.error e →
      (injectScript opts o st code sid genId env).2.success = false
      ∧ (st.console.errorHistory.length < st.console.maxHistorySize →
        (injectScript opts o st code sid genId env).1.console.errorHistory =
          st.console.errorHistory ++
            [createDetailedErrorLog o e sid env.src env.now]))
    ∧ (∀ v : JsValue, env.evalOutcome = Except.ok v →
      (injectScript opts o st code sid genId env).2.success = true
      ∧ (injectScript opts o st code sid genId env).1.console.errorHistory =
        st.console.errorHistory) := by
  have hcatch : ∀ (st2 : SIState) (e : JsError) (w : List String) (k : String),
      (injectCatch o st2 sid env e w k).2.success = false
      ∧ (st2.console.errorHistory.length < st2.console.maxHistorySize →
        (injectCatch o st2 sid env e w k).1.console.errorHistory =
          st2.console.errorHistory ++
            [createDetailedErrorLog o e sid env.src env.now]) := by
    intro st2 e w k
    refine ⟨by rw [injectCatch_result], ?_⟩
    intro hcap
    rw [injectCatch_console, logExecution_errorHistory]
    exact logDetailedError_errorHistory_append _ _ _ hcap
  constructor
  · intro e he
    by_cases hmon : opts.enableResourceMonitoring = true
    · have hred : injectScript opts o st code sid genId env =
        injectCatch o
          { st with
            activeExecutions := mapSetKey st.activeExecutions (execIdOf sid genId)
            resourceMonitors :=
              monSet st.resourceMonitors (execIdOf sid genId) env.usage }
          sid env e (validateCode o code).warnings (execIdOf sid genId) := by
        simp [injectScript, hacc, hvalid, he, hmon]
      rw [hred]
      exact hcatch _ e _ _
    · have hred : injectScript opts o st code sid genId env =
        injectCatch o
          { st with
            activeExecutions := mapSetKey st.activeExecutions (execIdOf sid genId) }
          sid env e (validateCode o code).warnings (execIdOf sid genId) := by
        simp [injectScript, hacc, hvalid, he, hmon]
      rw [hred]
      exact hcatch _ e _ _
  · intro v hv
    constructor
    · simp [injectScript, hacc, hvalid, hv]
    · simp [injectScript, hacc, hvalid, hv]
      split_ifs <;>
        simp [cleanupExecution, addMessage_errorHistory, logExecution_errorHistory]

/-- Closed instance of C5: a rejecting run fails and logs one error; a
completing run succeeds and logs none. -/
theorem injectScript_error_logging_witness :
    (injectScript defaultInjectorOptions oracleStub emptySIState "1"
      (some "s") "g" envErr).2.success = false
    ∧ (injectScript defaultInjectorOptions oracleStub emptySIState "1"
      (some "s") "g" envErr).1.console.errorHistory =
      emptySIState.console.errorHistory ++
        [createDetailedErrorLog oracleStub ⟨"boom", none, none, none⟩
          (some "s") envErr.src envErr.now]
    ∧ (injectScript defaultInjectorOptions oracleStub emptySIState "1"
      (some "s") "g" envOk).2.success = true
    ∧ (injectScript defaultInjectorOptions oracleStub emptySIState "1"
      (some "s") "g" envOk).1.console.errorHistory =
      emptySIState.console.errorHistory := by
  have h1 := injectScript_error_logging defaultInjectorOptions oracleStub
    emptySIState "1" (some "s") "g" envErr (by decide) (by decide)
  have h2 := injectScript_error_logging defaultInjectorOptions oracleStub
    emptySIState "1" (some "s") "g" envOk (by decide) (by decide)
  obtain ⟨hs, hh⟩ := h1.1 ⟨"boom", none, none, none⟩ rfl
  obtain ⟨hs2, hh2⟩ := h2.2 "v" rfl
  exact ⟨hs, hh (by decide), hs2, hh2⟩

/-- Claim C6: for a pattern that is not match-all and carries a regex
metacharacter, `matchesUrlPattern` compiles it (case-insensitively, inside
the oracle) and tests it against the original, non-stripped location,
returning that result; a pattern whose compilation throws yields `false`.
The function is total, so no input makes it throw. -/
theorem matchesUrlPattern_regex_branch
    (compile : String → Option (String → Bool)) (url pattern : String)
    (h1 : pattern ≠ "") (h2 : pattern ≠ ".*") (h3 : pattern ≠ "*")
    (hmeta : hasRegexMeta pattern = true) :
    matchesUrlPattern compile url pattern =
      ((compile pattern).map (fun test => test url)).getD false := by
  unfold matchesUrlPattern
  rw [if_neg (by simp [h1, h2, h3])]
  simp only [hmeta, if_true]
  cases hc : compile pattern <;> simp [hc]

/-- Closed instance of C6: the compiled test sees the original location
with protocol and `www.` intact, and a failing compilation yields false. -/
theorem matchesUrlPattern_regex_branch_witness :
    matchesUrlPattern (fun _ => some (fun s => decide (s = "https://www.a")))
      "https://www.a" "^a" = true
    ∧ matchesUrlPattern (fun _ => none) "https://www.a" "^a" = false := by
  constructor
  · rw [matchesUrlPattern_regex_branch _ _ _ (by decide) (by decide) (by decide)
      (by decide)]
    rfl
  · rw [matchesUrlPattern_regex_branch _ _ _ (by decide) (by decide) (by decide)
      (by decide)]
    rfl

/-- Claim C7: when the run succeeds and the measured memory usage exceeds a
nonzero configured ceiling, the only effect is one appended high-memory
warning string — the result still has `success = true`. -/
theorem injectScript_memory_warning (opts : ScriptInjectorOptions)
    (o : HostOracles) (st : SIState) (code : String) (sid : Option String)
    (genId : String) (env : FrameEnv) (v : JsValue)
    (hacc : env.accessible = true)
    (hvalid : (validateCode o code).isValid = true)
    (hok : env.evalOutcome = Except.ok v)
    (hmon : opts.enableResourceMonitoring = true)
    (hcfg : opts.maxMemoryUsage ≠ 0)
    (hmem : env.usage.memoryUsage > opts.maxMemoryUsage) :
    (injectScript opts o st code sid genId env).2.success = true
    ∧ (injectScript opts o st code sid genId env).2.warnings =
      (validateCode o code).warnings ++
        [memWarningText env.usage.memoryUsage] := by
  constructor <;> simp [injectScript, hacc, hvalid, hok, hmon, hcfg, hmem]

/-- Closed instance of C7: ceiling 1MB, measured 2MB — success with the
warning appended. -/
theorem injectScript_memory_warning_witness :
    (injectScript ⟨5000, true, 1, true⟩ oracleStub emptySIState "1" (some "s")
      "g" ⟨true, "", 0, Except.ok "v", ⟨2, 0, 0⟩⟩).2.success = true
    ∧ (injectScript ⟨5000, true, 1, true⟩ oracleStub emptySIState "1" (some "s")
      "g" ⟨true, "", 0, Except.ok "v", ⟨2, 0, 0⟩⟩).2.warnings =
      (validateCode oracleStub "1").warnings ++ [memWarningText 2] :=
  injectScript_memory_warning ⟨5000, true, 1, true⟩ oracleStub emptySIState "1"
    (some "s") "g" ⟨true, "", 0, Except.ok "v", ⟨2, 0, 0⟩⟩ "v" (by decide)
    (by decide) rfl rfl (by decide) (by decide)

/-- Claim C8: the empty pattern, `*` and `.*` match every location, for
every behaviour of the regex oracle. -/
theorem matchesUrlPattern_match_all
    (compile : String → Option (String → Bool)) (url : String) :
    matchesUrlPattern compile url "" = true
    ∧ matchesUrlPattern compile url "*" = true
    ∧ matchesUrlPattern compile url ".*" = true :=
  ⟨rfl, rfl, rfl⟩

/-- Claim C9: a disabled snippet makes `executeImmediate` return the fixed
failed result — error message `Snippet is disabled`, zeroed usage, no
warnings — with the whole injector state (active map and console)
untouched, so nothing was validated, executed, or logged. -/
theorem executeImmediate_disabled (opts : ScriptInjectorOptions)
    (o : HostOracles) (st : SIState) (snippet : Snippet) (genId : String)
    (env : FrameEnv) (h : snippet.enabled = false) :
    executeImmediate opts o st snippet genId env =
      (st, ⟨false, none, some ⟨"Snippet is disabled", none, none, none⟩,
        zeroUsage, []⟩) := by
  simp [executeImmediate, h]

/-- Closed instance of C9 on the disabled fixture snippet. -/
theorem executeImmediate_disabled_witness :
    executeImmediate defaultInjectorOptions oracleStub emptySIState snipB "g"
      envOk =
      (emptySIState, ⟨false, none, some ⟨"Snippet is disabled", none, none, none⟩,
        zeroUsage, []⟩) :=
  executeImmediate_disabled defaultInjectorOptions oracleStub emptySIState
    snipB "g" envOk (by decide)

/-- Copying allocation: the copy reads back equal to the source array, its
reference is fresh, and writing through it leaves the source array
unchanged. -/
theorem heapAlloc_copy_spec {α : Type} (h : List (List α)) (r : Nat)
    (hr : r < h.length) :
    heapGet (heapAlloc h (heapGet h r)).1 r = heapGet h r
    ∧ heapGet (heapAlloc h (heapGet h r)).1 (heapAlloc h (heapGet h r)).2 =
      heapGet h r
    ∧ (heapAlloc h (heapGet h r)).2 ≠ r
    ∧ ∀ v, heapGet
        (heapSet (heapAlloc h (heapGet h r)).1 (heapAlloc h (heapGet h r)).2 v)
        r = heapGet h r := by
  unfold heapAlloc heapGet heapSet
  refine ⟨?_, ?_, by omega, ?_⟩
  · rw [List.getD_eq_getElem?_getD, List.getD_eq_getElem?_getD,
      List.getElem?_append_left hr]
  · rw [List.getD_eq_getElem?_getD, List.getElem?_concat_length]
    rfl
  · intro v
    rw [List.getD_eq_getElem?_getD, List.getD_eq_getElem?_getD,
      List.getElem?_set_ne (by omega), List.getElem?_append_left hr]

/-- Claim C10: `getHistory` and `getErrorHistory` return fresh copies — the
call leaves the internal array unchanged, the returned array equals it, the
returned reference differs from the internal one, and overwriting the
returned array leaves the internal array unchanged. -/
theorem history_getters_fresh_copies (msgHeap : List (List ConsoleMessage))
    (errHeap : List (List ErrorLog)) (refs : CMRefs)
    (hm : refs.msgRef < msgHeap.length) (he : refs.errRef < errHeap.length) :
    (heapGet (getHistory msgHeap refs).1 refs.msgRef =
        heapGet msgHeap refs.msgRef
      ∧ heapGet (getHistory msgHeap refs).1 (getHistory msgHeap refs).2 =
        heapGet msgHeap refs.msgRef
      ∧ (getHistory msgHeap refs).2 ≠ refs.msgRef
      ∧ ∀ v, heapGet
          (heapSet (getHistory msgHeap refs).1 (getHistory msgHeap refs).2 v)
          refs.msgRef = heapGet msgHeap refs.msgRef)
    ∧ (heapGet (getErrorHistory errHeap refs).1 refs.errRef =
        heapGet errHeap refs.errRef
      ∧ heapGet (getErrorHistory errHeap refs).1 (getErrorHistory errHeap refs).2 =
        heapGet errHeap refs.errRef
      ∧ (getErrorHistory errHeap refs).2 ≠ refs.errRef
      ∧ ∀ v, heapGet
          (heapSet (getErrorHistory errHeap refs).1 (getErrorHistory errHeap refs).2 v)
          refs.errRef = heapGet errHeap refs.errRef) :=
  ⟨heapAlloc_copy_spec msgHeap refs.msgRef hm,
   heapAlloc_copy_spec errHeap refs.errRef he⟩

/-- Closed instance of C10 on singleton heaps. -/
theorem history_getters_fresh_copies_witness :
    (getHistory [[⟨MsgType.log, "m", 0, MsgSource.page, none⟩]] ⟨0, 0⟩).2 ≠ 0
    ∧ ∀ v, heapGet
        (heapSet (getHistory [[⟨MsgType.log, "m", 0, MsgSource.page, none⟩]] ⟨0, 0⟩).1
          (getHistory [[⟨MsgType.log, "m", 0, MsgSource.page, none⟩]] ⟨0, 0⟩).2 v)
        0 = heapGet [[⟨MsgType.log, "m", 0, MsgSource.page, none⟩]] 0 := by
  have h := history_getters_fresh_copies
    [[⟨MsgType.log, "m", 0, MsgSource.page, none⟩]]
    ([[]] : List (List ErrorLog)) ⟨0, 0⟩ (by decide) (by decide)
  exact ⟨h.1.2.2.1, h.1.2.2.2⟩
